import Mathlib

set_option maxRecDepth 8000

/-!
Shallow embedding of the conversational-database-interface repository.

Python strings are modelled as `List Char`.  The read-only SQL validator
`validate_read_only_query` is embedded from `test_validation_only.py`
(lines 7-40); raising an exception is modelled as `Except.error` carrying
the violation reason, returning `True` as `Except.ok true`.  The pieces of
`chat.py` that the claims mention (`handle_sql_mode`, the run-loop chat
interaction, `search_documents` / `answer_with_rag`, `get_chat_history`)
are embedded as pure functions over traces of observable events, with
every external collaborator (LLM, database, user confirmation) passed in
as a parameter.
-/

/-- Whitespace characters split on by Python's `str.split()` and stripped by
`str.strip()` (ASCII range; the embedding's alphabet). -/
def pyIsSpace (c : Char) : Bool :=
  c = ' ' || c = '\t' || c = '\n' || c = '\r' || c = '\x0b' || c = '\x0c'

/-- Characters removed from both ends by the validator's `.strip('; ')`. -/
def isSemiSpace (c : Char) : Bool :=
  c = ';' || c = ' '

/-- Python `s.split()`: split at whitespace, discarding empty pieces. -/
def pySplit (s : List Char) : List (List Char) :=
  (s.splitOnP pyIsSpace).filter (fun w => !w.isEmpty)

/-- Python `sep.join(ws)` for list-of-characters separators. -/
def joinWith (sep : List Char) : List (List Char) → List Char
  | [] => []
  | [w] => w
  | w :: ws => w ++ sep ++ joinWith sep ws

/-- Python `s.upper()` on the modelled alphabet. -/
def pyUpper (s : List Char) : List Char := s.map Char.toUpper

/-- Python `s.lower()` on the modelled alphabet. -/
def pyLowerStr (s : List Char) : List Char := s.map Char.toLower

/-- Python `s.strip(chars)`: drop characters satisfying `p` from both ends. -/
def pyStrip (p : Char → Bool) (s : List Char) : List Char :=
  ((s.dropWhile p).reverse.dropWhile p).reverse

/-- Python `s.startswith(pre)`. -/
def startsWithL : List Char → List Char → Bool
  | [], _ => true
  | _ :: _, [] => false
  | p :: ps, c :: cs => p == c && startsWithL ps cs

/-- Python `needle in hay`: `needle` occurs as a contiguous substring of `hay`. -/
def containsSub (needle : List Char) : List Char → Bool
  | [] => needle.isEmpty
  | c :: cs => startsWithL needle (c :: cs) || containsSub needle cs

/-- Normalisation pipeline of the validator (test_validation_only.py lines 13-17):
`clean_query = ' '.join(query.split())`, then `.upper().strip()`, then
`.strip('; ')`. -/
def cleanOf (query : List Char) : List Char :=
  pyStrip isSemiSpace (pyStrip pyIsSpace (pyUpper (joinWith [' '] (pySplit query))))

/-- The fixed blacklist of the validator (test_validation_only.py lines 20-24),
in source order. -/
def forbiddenKeywords : List (List Char) :=
  ["INSERT".toList, "UPDATE".toList, "DELETE".toList, "DROP".toList, "CREATE".toList,
   "ALTER".toList, "TRUNCATE".toList, "REPLACE".toList, "MERGE".toList, "GRANT".toList,
   "REVOKE".toList, "EXECUTE".toList, "EXEC".toList, "CALL".toList, "DO".toList]

/-- Reason carried by the security exception the validator raises. -/
inductive ViolationKind where
  | ForbiddenKeyword (kw : List Char)
  | NotReadOnlyStart
  | MultipleStatements
  deriving DecidableEq, Repr

/-- The spec's ValidationResult: Allowed, or Rejected with a reason. -/
inductive ValidationResult where
  | Allowed
  | Rejected (reason : ViolationKind)
  deriving DecidableEq, Repr

def kwSELECT : List Char := "SELECT".toList

def kwWITH : List Char := "WITH".toList

/-- Python `query.count(';')` (single-character needle). -/
def countSemis (query : List Char) : Nat := query.countP (fun c => c == ';')

/-- Python `query.strip().endswith(';')`. -/
def trailingSemi (query : List Char) : Bool :=
  (pyStrip pyIsSpace query).getLast? == some ';'

/-- validate_read_only_query (test_validation_only.py lines 7-40, identical copy in
test_llm_prompt_injection.py lines 61-87).  The forbidden-keyword scan iterates the
blacklist in order and raises on the first keyword occurring as a substring of the
cleaned query; then the SELECT/WITH start check on the cleaned query; then the
semicolon count on the original string.  `return True` becomes `.ok true`, each
`raise` becomes `.error` with its reason. -/
def validate_read_only_query (query : List Char) : Except ViolationKind Bool :=
  match forbiddenKeywords.find? (fun kw => containsSub kw (cleanOf query)) with
  | some kw => .error (.ForbiddenKeyword kw)
  | none =>
    if !(startsWithL kwSELECT (cleanOf query) || startsWithL kwWITH (cleanOf query)) then
      .error .NotReadOnlyStart
    else if countSemis query > 1 ∨ (countSemis query = 1 ∧ trailingSemi query = false) then
      .error .MultipleStatements
    else
      .ok true

/-- The spec's `classify` view of the validator: a raised security exception is a
Rejected result with its reason, a `True` return is Allowed. -/
def classify (raw : List Char) : ValidationResult :=
  match validate_read_only_query raw with
  | .ok _ => .Allowed
  | .error k => .Rejected k

/-- Observable events of ChatInterface.handle_sql_mode (chat.py lines 314-356). -/
inductive SqlEvent where
  | generatedShown (sql : List Char)
  | executed (sql : List Char)
  | resultsShown
  | noResultsShown
  | cancelledShown
  | errorShown
  deriving DecidableEq, Repr

/-- ChatInterface.handle_sql_mode (chat.py lines 314-356).  `genResult` is the outcome
of generate_sql_query (the sanitized LLM text, or an exception), `confirmInput` the
raw reply to the "Execute this query? (y/n)" prompt, `execOutcome` the database's
response to DatabaseManager.execute_query.  On a confirmation whose lowercase form is
"y" the generated string is passed directly to execute_query; otherwise the cancelled
notice is printed.  Any exception is caught and shown as an error.  No validation
function is invoked anywhere on this path in chat.py. -/
def handle_sql_mode (genResult : Except (List Char) (List Char))
    (confirmInput : List Char)
    (execOutcome : List Char → Except (List Char) (List (List Char))) : List SqlEvent :=
  match genResult with
  | .error _ => [.errorShown]
  | .ok sql =>
    if pyLowerStr confirmInput = "y".toList then
      match execOutcome sql with
      | .ok rows =>
        if rows.isEmpty then [.generatedShown sql, .executed sql, .noResultsShown]
        else [.generatedShown sql, .executed sql, .resultsShown]
      | .error _ => [.generatedShown sql, .executed sql, .errorShown]
    else [.generatedShown sql, .cancelledShown]

/-- Database effect of a trace: only `executed` events touch the database; `step` is
the database's transition for executing one SQL string. -/
def applyTrace {σ : Type} (step : σ → List Char → σ) (events : List SqlEvent) (db : σ) : σ :=
  events.foldl (fun d e => match e with | .executed sql => step d sql | _ => d) db

/-- A chat_history row (chat.py: session_id, role, content; insertion order stands in
for the timestamp). -/
structure ChatMsg where
  session : List Char
  role : List Char
  content : List Char
  deriving DecidableEq, Repr

/-- DatabaseManager.get_chat_history (chat.py lines 117-127): the SQL orders the
session's rows by timestamp DESC (newest first) and limits to `limit`; Python then
returns `list(reversed(results))`.  `storage` is the chat_history table in insertion
(chronological) order. -/
def get_chat_history (storage : List ChatMsg) (sid : List Char) (limit : Nat) :
    List ChatMsg :=
  (((storage.filter (fun m => m.session == sid)).reverse).take limit).reverse

/-- Observable events of one run-loop chat interaction (chat.py lines 435-503 with
handle_chat_mode, lines 369-395). -/
inductive ChatEvent where
  | userSaveTried
  | answerShown (text : List Char)
  | assistantSaveTried
  | errorShown
  deriving DecidableEq, Repr

/-- One chat interaction of ChatInterface.run (chat.py lines 466-469 or 483-492
followed by handle_chat_mode, lines 369-395).  The outer try saves the user message
and then runs handle_chat_mode; handle_chat_mode fetches history before its inner
try; the inner try calls the LLM, prints the answer, then saves the assistant
message; an exception propagating to either try prints an error notice.  Each
collaborator outcome is a parameter. -/
def run_chat_interaction (saveUser : Except (List Char) Unit)
    (historyRes : Except (List Char) (List ChatMsg))
    (llmRes : Except (List Char) (List Char))
    (saveAssistant : Except (List Char) Unit) : List ChatEvent :=
  match saveUser with
  | .error _ => [.errorShown]
  | .ok _ =>
    .userSaveTried ::
      (match historyRes with
       | .error _ => [.errorShown]
       | .ok _ =>
         match llmRes with
         | .error _ => [.errorShown]
         | .ok ans =>
           match saveAssistant with
           | .ok _ => [.answerShown ans, .assistantSaveTried]
           | .error _ => [.answerShown ans, .assistantSaveTried, .errorShown])

/-- Whether a chat event displays the primary answer. -/
def isAnswerShown : ChatEvent → Bool
  | .answerShown _ => true
  | _ => false

/-- A row of the documents table (chat.py).  The pgvector float vector is modelled
as an abstract numeric list; only its nullability matters to the claims, the
numeric distance being a parameter of the search. -/
structure Document where
  content : List Char
  metadata : List (List Char × List Char)
  embedding : Option (List Int)
  deriving DecidableEq, Repr

/-- DatabaseManager.search_documents (chat.py lines 136-151): the SQL keeps only rows
`WHERE embedding IS NOT NULL`, orders them by vector distance to the query embedding
(ascending, i.e. most similar first) and truncates to `top_k`.  `dist` abstracts the
cosine distance of a stored vector to the query embedding. -/
def search_documents (store : List Document) (dist : List Int → Int) (top_k : Nat) :
    List Document :=
  ((store.filter (fun d => d.embedding.isSome)).mergeSort
    (fun a b => decide (dist (a.embedding.getD []) ≤ dist (b.embedding.getD [])))).take top_k

/-- The numbered context lines of answer_with_rag (chat.py lines 282-285). -/
def numberedDocs (docs : List Document) : List (List Char) :=
  docs.enum.map (fun p => "Document ".toList ++ (toString (p.1 + 1)).toList
    ++ ": ".toList ++ p.2.content)

/-- ChatInterface.answer_with_rag (chat.py lines 273-312): search the documents; when
nothing is found return the fixed no-information sentence without consulting the LLM;
otherwise assemble the context block, the history rendering and the question into the
prompt and call the LLM.  Returns the answer and whether the LLM was called. -/
def answer_with_rag (store : List Document) (dist : List Int → Int)
    (history : List ChatMsg) (question : List Char)
    (llm : List (List Char × List Char) → List Char) : List Char × Bool :=
  match search_documents store dist 3 with
  | [] => ("I couldn't find any relevant information in the knowledge base.".toList, false)
  | d :: ds =>
    let context := joinWith "\n\n".toList (numberedDocs (d :: ds))
    let historyText := joinWith "\n".toList
      (history.map (fun m => m.role ++ ": ".toList ++ m.content))
    let promptText :=
      "Based on the following information, answer the user's question.\n\nContext from knowledge base:\n".toList
      ++ context
      ++ "\n\nRecent conversation:\n".toList
      ++ historyText
      ++ "\n\nUser Question: ".toList
      ++ question
      ++ "\n\nProvide a helpful and accurate answer based on the context provided.\n".toList
    (llm [("system".toList,
           "You are a helpful assistant with access to a knowledge base.".toList),
          ("user".toList, promptText)], true)

/-! ## Helper lemmas about the validator's control flow -/

theorem validate_eq_of_find_some {s kw : List Char}
    (hf : forbiddenKeywords.find? (fun k => containsSub k (cleanOf s)) = some kw) :
    validate_read_only_query s = .error (.ForbiddenKeyword kw) := by
  unfold validate_read_only_query
  rw [hf]

theorem validate_eq_of_find_none {s : List Char}
    (hf : forbiddenKeywords.find? (fun k => containsSub k (cleanOf s)) = none) :
    validate_read_only_query s =
      (if !(startsWithL kwSELECT (cleanOf s) || startsWithL kwWITH (cleanOf s)) then
        .error .NotReadOnlyStart
      else if countSemis s > 1 ∨ (countSemis s = 1 ∧ trailingSemi s = false) then
        .error .MultipleStatements
      else
        .ok true) := by
  unfold validate_read_only_query
  rw [hf]

theorem classify_eq_rejected {s : List Char} {k : ViolationKind}
    (h : validate_read_only_query s = .error k) : classify s = .Rejected k := by
  unfold classify
  rw [h]

theorem classify_eq_allowed {s : List Char}
    (h : validate_read_only_query s = .ok true) : classify s = .Allowed := by
  unfold classify
  rw [h]

theorem find_none_of_all_not {s : List Char}
    (hall : forbiddenKeywords.all (fun kw => !containsSub kw (cleanOf s)) = true) :
    forbiddenKeywords.find? (fun k => containsSub k (cleanOf s)) = none := by
  rw [List.find?_eq_none]
  intro kw hkw
  have h := List.all_eq_true.mp hall kw hkw
  simp only [Bool.not_eq_true'] at h
  simp [h]

/-! ## Claims about the validator -/

/-- Claim C2: any input whose cleaned form (whitespace runs collapsed to single
spaces, uppercased, leading/trailing spaces and semicolons stripped) contains one of
the fifteen forbidden keywords as a plain substring is rejected with the
ForbiddenKeyword reason naming a keyword that does occur as a substring — a plain
substring test, not a word-boundary test. -/
theorem c2_forbidden_keyword_rejected (s : List Char)
    (h : forbiddenKeywords.any (fun kw => containsSub kw (cleanOf s)) = true) :
    ∃ kw ∈ forbiddenKeywords, containsSub kw (cleanOf s) = true ∧
      classify s = .Rejected (.ForbiddenKeyword kw) := by
  rcases hf : forbiddenKeywords.find? (fun k => containsSub k (cleanOf s)) with _ | kw
  · exfalso
    rw [List.find?_eq_none] at hf
    rcases List.any_eq_true.mp h with ⟨kw, hmem, hsub⟩
    exact hf kw hmem hsub
  · exact ⟨kw, List.mem_of_find?_eq_some hf, by simpa using List.find?_some hf,
      classify_eq_rejected (validate_eq_of_find_some hf)⟩

theorem c2_witness :
    forbiddenKeywords.any
        (fun kw => containsSub kw (cleanOf "DROP TABLE users".toList)) = true ∧
    ∃ kw ∈ forbiddenKeywords, containsSub kw (cleanOf "DROP TABLE users".toList) = true ∧
      classify "DROP TABLE users".toList = .Rejected (.ForbiddenKeyword kw) :=
  ⟨by decide, c2_forbidden_keyword_rejected _ (by decide)⟩

/-- Claim C3: an input on which no forbidden keyword fires and whose cleaned form
starts with neither SELECT nor WITH is rejected with the not-read-only-start reason;
and the CTE query "WITH cte AS (SELECT * FROM users) SELECT * FROM cte" is Allowed. -/
theorem c3_not_read_only_start_and_cte :
    (∀ s : List Char,
      forbiddenKeywords.all (fun kw => !containsSub kw (cleanOf s)) = true →
      (startsWithL kwSELECT (cleanOf s) || startsWithL kwWITH (cleanOf s)) = false →
      classify s = .Rejected .NotReadOnlyStart) ∧
    classify "WITH cte AS (SELECT * FROM users) SELECT * FROM cte".toList = .Allowed := by
  constructor
  · intro s hall hpre
    refine classify_eq_rejected ?_
    rw [validate_eq_of_find_none (find_none_of_all_not hall), hpre]
    rfl
  · decide

theorem c3_witness :
    forbiddenKeywords.all
        (fun kw => !containsSub kw (cleanOf "SHOW TABLES".toList)) = true ∧
    (startsWithL kwSELECT (cleanOf "SHOW TABLES".toList)
      || startsWithL kwWITH (cleanOf "SHOW TABLES".toList)) = false ∧
    classify "SHOW TABLES".toList = .Rejected .NotReadOnlyStart :=
  ⟨by decide, by decide, c3_not_read_only_start_and_cte.1 _ (by decide) (by decide)⟩

/-- Claim C4: for an input surviving the keyword scan and the SELECT/WITH start
check, the semicolon rule counts `;` in the original raw string (not the cleaned
form): more than one semicolon, or exactly one that is not in trailing position of
the whitespace-trimmed raw string, rejects with MultipleStatements; otherwise the
input is Allowed. -/
theorem c4_semicolon_rule (s : List Char)
    (hall : forbiddenKeywords.all (fun kw => !containsSub kw (cleanOf s)) = true)
    (hpre : (startsWithL kwSELECT (cleanOf s) || startsWithL kwWITH (cleanOf s)) = true) :
    ((countSemis s > 1 ∨ (countSemis s = 1 ∧ trailingSemi s = false)) →
      classify s = .Rejected .MultipleStatements) ∧
    (¬(countSemis s > 1 ∨ (countSemis s = 1 ∧ trailingSemi s = false)) →
      classify s = .Allowed) := by
  have hbase := validate_eq_of_find_none (find_none_of_all_not hall)
  rw [hpre] at hbase
  simp only [Bool.not_true, Bool.false_eq_true, if_false] at hbase
  constructor
  · intro hsemi
    rw [if_pos hsemi] at hbase
    exact classify_eq_rejected hbase
  · intro hsemi
    rw [if_neg hsemi] at hbase
    exact classify_eq_allowed hbase

theorem c4_witness :
    classify "SELECT 1; SELECT 2".toList = .Rejected .MultipleStatements ∧
    classify "SELECT * FROM users;".toList = .Allowed :=
  ⟨(c4_semicolon_rule "SELECT 1; SELECT 2".toList (by decide) (by decide)).1
      (Or.inr ⟨by decide, by decide⟩),
   (c4_semicolon_rule "SELECT * FROM users;".toList (by decide) (by decide)).2
      (by decide)⟩

/-- Claim C8: classification is a total deterministic function of the input string:
every input has exactly one result, and that result is Allowed or a Rejected value
carrying one of the three violation reasons (a keyword of the fixed list, the
not-read-only start, or multiple statements). -/
theorem c8_classify_total_deterministic (s : List Char) :
    (∃! r : ValidationResult, classify s = r) ∧
    (classify s = .Allowed ∨ classify s = .Rejected .NotReadOnlyStart ∨
     classify s = .Rejected .MultipleStatements ∨
     ∃ kw ∈ forbiddenKeywords, classify s = .Rejected (.ForbiddenKeyword kw)) := by
  refine ⟨⟨classify s, rfl, fun r h => h.symm⟩, ?_⟩
  rcases hf : forbiddenKeywords.find? (fun k => containsSub k (cleanOf s)) with _ | kw
  · have hbase := validate_eq_of_find_none hf
    by_cases hp : (startsWithL kwSELECT (cleanOf s) || startsWithL kwWITH (cleanOf s)) = true
    · rw [hp] at hbase
      simp only [Bool.not_true, Bool.false_eq_true, if_false] at hbase
      by_cases hsemi : countSemis s > 1 ∨ (countSemis s = 1 ∧ trailingSemi s = false)
      · rw [if_pos hsemi] at hbase
        exact Or.inr (Or.inr (Or.inl (classify_eq_rejected hbase)))
      · rw [if_neg hsemi] at hbase
        exact Or.inl (classify_eq_allowed hbase)
    · rw [Bool.not_eq_true] at hp
      rw [hp] at hbase
      simp only [Bool.not_false, if_true] at hbase
      exact Or.inr (Or.inl (classify_eq_rejected hbase))
  · exact Or.inr (Or.inr (Or.inr ⟨kw, List.mem_of_find?_eq_some hf,
      classify_eq_rejected (validate_eq_of_find_some hf)⟩))

/-! ## Inputs consisting only of whitespace and semicolons -/

theorem mem_of_mem_splitOnP {α : Type} {p : α → Bool} :
    ∀ (l w : List α), w ∈ l.splitOnP p → ∀ c ∈ w, c ∈ l ∧ p c = false
  | [], w, hw, c, hc => by
      rw [List.splitOnP_nil] at hw
      simp only [List.mem_singleton] at hw
      subst hw
      simp at hc
  | x :: xs, w, hw, c, hc => by
      rw [List.splitOnP_cons] at hw
      by_cases hx : p x
      · rw [if_pos hx] at hw
        rcases List.mem_cons.mp hw with h | h
        · subst h; simp at hc
        · have h2 := mem_of_mem_splitOnP xs w h c hc
          exact ⟨List.mem_cons_of_mem _ h2.1, h2.2⟩
      · rw [if_neg hx] at hw
        rcases h0 : xs.splitOnP p with _ | ⟨hd, tl⟩
        · exact absurd h0 (List.splitOnP_ne_nil _ _)
        · rw [h0, List.modifyHead_cons] at hw
          rcases List.mem_cons.mp hw with h | h
          · subst h
            rcases List.mem_cons.mp hc with h | h
            · subst h
              exact ⟨List.mem_cons_self _ _, Bool.not_eq_true _ ▸ hx⟩
            · have h2 := mem_of_mem_splitOnP xs hd
                (by rw [h0]; exact List.mem_cons_self _ _) c h
              exact ⟨List.mem_cons_of_mem _ h2.1, h2.2⟩
          · have h2 := mem_of_mem_splitOnP xs w
              (by rw [h0]; exact List.mem_cons_of_mem _ h) c hc
            exact ⟨List.mem_cons_of_mem _ h2.1, h2.2⟩

theorem joinWith_mem {sep : List Char} :
    ∀ (ws : List (List Char)) (c : Char), c ∈ joinWith sep ws →
      c ∈ sep ∨ ∃ w ∈ ws, c ∈ w
  | [], c, h => by simp [joinWith] at h
  | [w], c, h => by
      simp only [joinWith] at h
      exact Or.inr ⟨w, by simp, h⟩
  | w :: w' :: ws, c, h => by
      simp only [joinWith, List.append_assoc, List.mem_append] at h
      rcases h with h | h | h
      · exact Or.inr ⟨w, by simp, h⟩
      · exact Or.inl h
      · rcases joinWith_mem (w' :: ws) c h with h | ⟨u, hu, hc⟩
        · exact Or.inl h
        · exact Or.inr ⟨u, List.mem_cons_of_mem _ hu, hc⟩

theorem pyStrip_eq_nil {p : Char → Bool} {l : List Char} (h : ∀ c ∈ l, p c = true) :
    pyStrip p l = [] := by
  unfold pyStrip
  rw [List.dropWhile_eq_nil_iff.mpr h]
  rfl

theorem mem_of_mem_pyStrip {p : Char → Bool} {l : List Char} {c : Char}
    (h : c ∈ pyStrip p l) : c ∈ l := by
  unfold pyStrip at h
  rw [List.mem_reverse] at h
  have h1 := (List.dropWhile_sublist _).subset h
  rw [List.mem_reverse] at h1
  exact (List.dropWhile_sublist _).subset h1

theorem cleanOf_eq_nil_of_ws_semi {s : List Char}
    (h : ∀ c ∈ s, pyIsSpace c = true ∨ c = ';') : cleanOf s = [] := by
  unfold cleanOf
  apply pyStrip_eq_nil
  intro c hc
  have hc1 := mem_of_mem_pyStrip hc
  rw [pyUpper, List.mem_map] at hc1
  rcases hc1 with ⟨d, hd, hdc⟩
  rcases joinWith_mem _ d hd with hsep | ⟨w, hw, hdw⟩
  · simp only [List.mem_singleton] at hsep
    subst hsep
    subst hdc
    decide
  · have hw' : w ∈ s.splitOnP pyIsSpace := List.mem_of_mem_filter hw
    have hd2 := mem_of_mem_splitOnP s w hw' d hdw
    rcases h d hd2.1 with hws | hsemi
    · rw [hd2.2] at hws
      exact absurd hws (by simp)
    · subst hsemi
      subst hdc
      decide

/-- Claim C10: the validator never returns False — every input yields `True` or a
raised security exception; and an input consisting only of whitespace and semicolons
passes the forbidden-keyword scan vacuously and is rejected through the
read-only-start exception, never allowed. -/
theorem c10_never_false (s : List Char) :
    validate_read_only_query s ≠ .ok false ∧
    ((∀ c ∈ s, pyIsSpace c = true ∨ c = ';') →
      validate_read_only_query s = .error .NotReadOnlyStart) := by
  constructor
  · intro hb
    unfold validate_read_only_query at hb
    split at hb
    · simp at hb
    · split at hb
      · simp at hb
      · split at hb
        · simp at hb
        · simp at hb
  · intro hws
    have hclean := cleanOf_eq_nil_of_ws_semi hws
    have hnil : ∀ kw ∈ forbiddenKeywords, containsSub kw ([] : List Char) = false := by
      decide
    have hf : forbiddenKeywords.find? (fun k => containsSub k (cleanOf s)) = none := by
      rw [List.find?_eq_none]
      intro kw hkw
      rw [hclean]
      simp [hnil kw hkw]
    rw [validate_eq_of_find_none hf, hclean]
    rfl

theorem c10_witness :
    validate_read_only_query " ; ".toList ≠ .ok false ∧
    validate_read_only_query " ; ".toList = .error .NotReadOnlyStart :=
  ⟨(c10_never_false _).1, (c10_never_false _).2 (by decide)⟩

/-! ## Claims about chat.py -/

/-- Claim C9: the history read returns exactly the last `limit` messages of the
session, in chronological (oldest-first) order: fetching in newest-first order,
truncating, and reversing equals dropping all but the final `limit` entries of the
session's chronological list. -/
theorem c9_history_chronological (storage : List ChatMsg) (sid : List Char)
    (limit : Nat) :
    get_chat_history storage sid limit =
      (storage.filter (fun m => m.session == sid)).drop
        ((storage.filter (fun m => m.session == sid)).length - limit) := by
  unfold get_chat_history
  rw [List.take_reverse, List.reverse_reverse]

/-- Claim C1 (evaluation at the failing input): handle_sql_mode passes the generated
string "DROP TABLE users;" to the database execution call upon confirmation "y",
although the read-only validator classifies that very string as Rejected — no
classification gates the execution path. -/
theorem c1_unvalidated_execution :
    handle_sql_mode (.ok "DROP TABLE users;".toList) "y".toList (fun _ => .ok []) =
      [.generatedShown "DROP TABLE users;".toList,
       .executed "DROP TABLE users;".toList, .noResultsShown] ∧
    classify "DROP TABLE users;".toList = .Rejected (.ForbiddenKeyword "DROP".toList) := by
  constructor
  · decide
  · decide

/-- Claim C6: a confirmation whose lowercase form is not "y" cancels: the trace shows
the generated query and the cancelled notice only — no execution event, no error
event — and the database state is unchanged under any execution semantics. -/
theorem c6_decline_leaves_db_unchanged {σ : Type} (sql confirmInput : List Char)
    (execOutcome : List Char → Except (List Char) (List (List Char)))
    (step : σ → List Char → σ) (db : σ)
    (h : pyLowerStr confirmInput ≠ "y".toList) :
    handle_sql_mode (.ok sql) confirmInput execOutcome =
      [.generatedShown sql, .cancelledShown] ∧
    applyTrace step (handle_sql_mode (.ok sql) confirmInput execOutcome) db = db := by
  have htrace : handle_sql_mode (.ok sql) confirmInput execOutcome =
      [.generatedShown sql, .cancelledShown] := by
    simp only [handle_sql_mode]
    rw [if_neg h]
  refine ⟨htrace, ?_⟩
  rw [htrace]
  rfl

theorem c6_witness :
    handle_sql_mode (.ok "SELECT 1".toList) "n".toList (fun _ => .ok []) =
      [.generatedShown "SELECT 1".toList, .cancelledShown] ∧
    applyTrace (fun (d : Nat) _ => d + 1)
      (handle_sql_mode (.ok "SELECT 1".toList) "n".toList (fun _ => .ok [])) 0 = 0 :=
  c6_decline_leaves_db_unchanged "SELECT 1".toList "n".toList (fun _ => .ok [])
    (fun d _ => d + 1) 0 (by decide)

/-- Claim C5 counterexample: at a concrete interaction in which persisting the user's
chat message fails (every other collaborator succeeding), the trace contains no
answer event — the primary answer is not returned, so a failed history append does
abort the in-progress flow. -/
theorem c5_counterexample_user_save_fatal :
    (run_chat_interaction (.error "connection lost".toList) (.ok [])
      (.ok "the things I know".toList) (.ok ())).all
        (fun e => !isAnswerShown e) = true := by
  decide

/-- Claim C5 as amended: only the post-answer append is non-fatal.  Failure
persisting the assistant's reply happens after the answer is displayed: the answer
is still shown and the failure surfaces as a caught error notice; failure persisting
the user's message before the handler aborts the interaction with an error notice
and no answer is produced. -/
theorem c5_amended_append_failure (hist : List ChatMsg) (ans e : List Char)
    (historyRes : Except (List Char) (List ChatMsg))
    (llmRes : Except (List Char) (List Char))
    (saveAssistant : Except (List Char) Unit) :
    run_chat_interaction (.ok ()) (.ok hist) (.ok ans) (.error e) =
      [.userSaveTried, .answerShown ans, .assistantSaveTried, .errorShown] ∧
    run_chat_interaction (.error e) historyRes llmRes saveAssistant =
      [.errorShown] := by
  exact ⟨rfl, rfl⟩

/-- Claim C7: when no stored document has an embedding, the document search returns
the empty sequence and the RAG path returns the fixed no-information response with
the LLM never called. -/
theorem c7_no_embeddings_no_llm (store : List Document) (dist : List Int → Int)
    (history : List ChatMsg) (question : List Char)
    (llm : List (List Char × List Char) → List Char)
    (h : ∀ d ∈ store, d.embedding = none) :
    search_documents store dist 3 = [] ∧
    answer_with_rag store dist history question llm =
      ("I couldn't find any relevant information in the knowledge base.".toList,
       false) := by
  have hfilter : store.filter (fun d => d.embedding.isSome) = [] := by
    rw [List.filter_eq_nil_iff]
    intro d hd
    rw [h d hd]
    simp
  have hsearch : search_documents store dist 3 = [] := by
    unfold search_documents
    rw [hfilter, List.mergeSort_nil]
    rfl
  refine ⟨hsearch, ?_⟩
  unfold answer_with_rag
  rw [hsearch]

theorem c7_witness :
    search_documents [⟨"refund policy text".toList, [], none⟩] (fun _ => 0) 3 = [] ∧
    answer_with_rag [⟨"refund policy text".toList, [], none⟩] (fun _ => 0) []
        "refund policy".toList (fun _ => []) =
      ("I couldn't find any relevant information in the knowledge base.".toList,
       false) :=
  c7_no_embeddings_no_llm [⟨"refund policy text".toList, [], none⟩] (fun _ => 0) []
    "refund policy".toList (fun _ => []) (by decide)
